import Mathlib

/-!
Verification development for the gin-contrib/cache middleware (itering/cache):
a request-coalescing HTTP response cache with pluggable persistence backends.
The Go sources are embedded shallowly: stateful store operations become
explicit state passing over association lists, machine integers become
Nat/Int with explicit wraparound, and fallible operations return explicit
error values.
-/

namespace GinCache

/-- Modelled from the spec: the error taxonomy of `persistence/cache_store.go`
(the file declaring `ErrCacheMiss` and `ErrNotStored` is not among the staged
sources; spec section 7 distinguishes `CacheMiss`, `NotStored`, and generic
backend errors as pairwise distinct error values). `generic` stands for any
error value other than the two sentinels. -/
inductive StoreErr where
  | cacheMiss
  | notStored
  | generic
deriving DecidableEq, Repr

/-- Modelled from the spec: TTL sentinel DEFAULT (spec section 3: use the
pre-configured baseline expiration). In the repository it is `time.Duration(0)`,
as the comment in `inmemory.go` line 37 notes go-cache understands it. -/
def DEFAULT : Int := 0

/-- Modelled from the spec: TTL sentinel FOREVER (spec section 3: no
expiration), `time.Duration(-1)` as understood by go-cache. -/
def FOREVER : Int := -1

/-- Association-list lookup with string keys (models a Go map read). -/
def alookup (k : String) : List (String × α) → Option α
  | [] => none
  | (k2, v) :: rest => if k = k2 then some v else alookup k rest

/-- Association-list insert-or-replace (models a Go map write). -/
def aset (k : String) (v : α) : List (String × α) → List (String × α)
  | [] => [(k, v)]
  | (k2, v2) :: rest => if k = k2 then (k, v) :: rest else (k2, v2) :: aset k v rest

/-- Association-list removal (models a Go map delete). -/
def aerase (k : String) : List (String × α) → List (String × α)
  | [] => []
  | (k2, v2) :: rest => if k = k2 then aerase k rest else (k2, v2) :: aerase k rest

/-- Reinterpretation of an Int as a Go uint64 (two's complement). -/
def u64 (i : Int) : Nat := (i % (2 ^ 64)).toNat

/-- Reinterpretation of a Go uint64 as an int64 (two's complement). -/
def i64ofNat (n : Nat) : Int := if n < 2 ^ 63 then (n : Int) else (n : Int) - 2 ^ 64

/-- Wraparound of Int addition/subtraction into the int64 range. -/
def wrap64 (i : Int) : Int := (i + 2 ^ 63) % 2 ^ 64 - 2 ^ 63

/-! ### The go-cache dependency

`src/persistence/inmemory.go` embeds `github.com/patrickmn/go-cache` (v2.1.0,
per go.mod) and delegates every operation to it. The definitions below model
that library's cache: items carry an absolute expiration instant (0 = never
expires) and the cache carries a current time and a default expiration. -/

/-- Item of the go-cache store: a value (the claims only exercise integer
values) and an absolute expiration instant, 0 meaning no expiry. -/
structure GCItem where
  object : Int
  expiration : Nat
deriving DecidableEq, Repr

/-- State of a go-cache cache: its items, the configured default expiration
(a Go duration: positive, 0, or -1), and the current clock reading. -/
structure GoCache where
  items : List (String × GCItem)
  defaultExpiration : Int
  now : Nat
deriving DecidableEq, Repr

/-- Lookup as go-cache `get` does it: found items whose expiration is set
and in the past count as absent. -/
def GoCache.getItem (c : GoCache) (k : String) : Option Int :=
  match alookup k c.items with
  | none => none
  | some it => if 0 < it.expiration ∧ it.expiration < c.now then none else some it.object

/-- Expiration instant go-cache computes on a write: duration 0 selects the
default expiration, a positive duration is added to the clock, and a negative
duration (NoExpiration) stores 0. -/
def GoCache.expiryOf (c : GoCache) (d : Int) : Nat :=
  if d = 0 then
    (if 0 < c.defaultExpiration then c.now + c.defaultExpiration.toNat else 0)
  else if 0 < d then c.now + d.toNat else 0

/-- Unconditional upsert, as go-cache `Set`. -/
def GoCache.set (c : GoCache) (k : String) (v : Int) (d : Int) : GoCache :=
  { c with items := aset k ⟨v, c.expiryOf d⟩ c.items }

/-- go-cache `Add`: fails (with a generic formatted error, Bool true below)
when a live item already exists, otherwise stores. -/
def GoCache.add (c : GoCache) (k : String) (v : Int) (d : Int) : GoCache × Bool :=
  match c.getItem k with
  | some _ => (c, true)
  | none => (c.set k v d, false)

/-- go-cache `Replace`: fails when no live item exists, otherwise stores. -/
def GoCache.replace (c : GoCache) (k : String) (v : Int) (d : Int) : GoCache × Bool :=
  match c.getItem k with
  | none => (c, true)
  | some _ => (c.set k v d, false)

/-- go-cache `Increment`: errors when the key is absent or expired; otherwise
adds the delta to the stored integer in place (int64 wraparound, expiration
kept, no clamping) and reports success. It does not return the new value. -/
def GoCache.increment (c : GoCache) (k : String) (n : Int) : GoCache × Bool :=
  match alookup k c.items with
  | none => (c, true)
  | some it =>
    if 0 < it.expiration ∧ it.expiration < c.now then (c, true)
    else ({ c with items := aset k ⟨wrap64 (it.object + n), it.expiration⟩ c.items }, false)

/-- go-cache `Decrement`: errors when the key is absent or expired; otherwise
subtracts the delta in place (int64 wraparound, no flooring at zero) and
reports success. It does not return the new value. -/
def GoCache.decrement (c : GoCache) (k : String) (n : Int) : GoCache × Bool :=
  match alookup k c.items with
  | none => (c, true)
  | some it =>
    if 0 < it.expiration ∧ it.expiration < c.now then (c, true)
    else ({ c with items := aset k ⟨wrap64 (it.object - n), it.expiration⟩ c.items }, false)

/-! ### InMemoryStore (src/persistence/inmemory.go) -/

/-- Outcome of `InMemoryStore.Get`: the (unchanged) store, the value written
through the destination pointer if any, and the returned error if any. -/
structure GetOut where
  store : GoCache
  written : Option Int
  err : Option StoreErr
deriving DecidableEq, Repr

namespace InMemoryStore

/-- InMemoryStore.Get (inmemory.go lines 21-33): a miss returns ErrCacheMiss;
on a hit the value is written through `value` only when that argument is a
settable pointer (the reflection check), otherwise ErrNotStored is returned.
The destination argument is abstracted to the Boolean outcome of the
reflection check. -/
def Get (c : GoCache) (key : String) (destSettablePtr : Bool) : GetOut :=
  match c.getItem key with
  | none => ⟨c, none, some .cacheMiss⟩
  | some val =>
    if destSettablePtr then ⟨c, some val, none⟩ else ⟨c, none, some .notStored⟩

/-- InMemoryStore.Set (inmemory.go lines 36-40): delegate to go-cache Set,
always nil error. -/
def Set (c : GoCache) (key : String) (v : Int) (d : Int) : GoCache × Option StoreErr :=
  (c.set key v d, none)

/-- InMemoryStore.Add (inmemory.go lines 43-46): the go-cache error is
returned verbatim, so a duplicate live key yields go-cache's generic
formatted error, not ErrNotStored. -/
def Add (c : GoCache) (key : String) (v : Int) (d : Int) : GoCache × Option StoreErr :=
  match c.add key v d with
  | (c2, false) => (c2, none)
  | (c2, true) => (c2, some .generic)

/-- InMemoryStore.Replace (inmemory.go lines 49-54): a go-cache failure is
mapped to ErrNotStored. -/
def Replace (c : GoCache) (key : String) (v : Int) (d : Int) : GoCache × Option StoreErr :=
  match c.replace key v d with
  | (c2, false) => (c2, none)
  | (c2, true) => (c2, some .notStored)

/-- InMemoryStore.Delete (inmemory.go lines 57-60). -/
def Delete (c : GoCache) (key : String) : GoCache × Option StoreErr :=
  ({ c with items := aerase key c.items }, none)

/-- InMemoryStore.Increment (inmemory.go lines 63-69): on a go-cache error it
returns (0, ErrCacheMiss); on success it returns the delta `n` itself, not
the updated value. -/
def Increment (c : GoCache) (key : String) (n : Nat) : GoCache × Nat × Option StoreErr :=
  match c.increment key (i64ofNat n) with
  | (c2, true) => (c2, 0, some .cacheMiss)
  | (c2, false) => (c2, n, none)

/-- InMemoryStore.Decrement (inmemory.go lines 72-78): on a go-cache error it
returns (0, ErrCacheMiss); on success it returns the delta `n` itself, not
the updated (and possibly negative) value. -/
def Decrement (c : GoCache) (key : String) (n : Nat) : GoCache × Nat × Option StoreErr :=
  match c.decrement key (i64ofNat n) with
  | (c2, true) => (c2, 0, some .cacheMiss)
  | (c2, false) => (c2, n, none)

end InMemoryStore

/-! ### RedisStore (src/persistence/redis.go)

The Redis server is modelled as an association list from keys to integer
values together with the recorded TTL of the last write (redis deletes
expired keys, so liveness coincides with presence; the serialization codec
is opaque per spec section 1 and modelled as the identity on the integer
values the claims exercise). -/

/-- Entry of the modelled redis server: the stored integer and the TTL in
seconds recorded by the last SETEX (0 when written by plain SET). -/
structure REntry where
  value : Int
  ttlSeconds : Nat
deriving DecidableEq, Repr

/-- State of the modelled redis server. -/
def RedisState := List (String × REntry)
deriving instance DecidableEq, Repr for RedisState

namespace RedisStore

/-- RedisStore.KeyWithPrefix (redis.go lines 174-179). -/
def KeyWithPrefix (pfx key : String) : String :=
  if pfx ≠ "" then pfx ++ ":" ++ key else key

/-- EXISTS as redis.go's `exists` helper observes it (lines 81-84). -/
def existsKey (st : RedisState) (k : String) : Bool :=
  (alookup k st).isSome

/-- Write performed by RedisStore's `invoke` (redis.go lines 149-172): the
DEFAULT sentinel selects the configured default expiration, FOREVER maps to
duration 0, a positive duration becomes SETEX with the duration in seconds,
and otherwise a plain SET is issued. `secondsPerUnit` converts the modelled
duration unit to seconds as `int32(expires / time.Second)` does. -/
def effectiveExpiry (defaultExpiration expires : Int) : Int :=
  if expires = DEFAULT then defaultExpiration
  else if expires = FOREVER then 0 else expires

/-- Write performed by RedisStore's `invoke`, continued: SETEX when the
effective expiry is positive, SET otherwise. -/
def invoke (defaultExpiration : Int) (st : RedisState) (k : String) (v : Int)
    (expires : Int) : RedisState :=
  if 0 < effectiveExpiry defaultExpiration expires then
    aset k ⟨v, (effectiveExpiry defaultExpiration expires).toNat⟩ st
  else aset k ⟨v, 0⟩ st

/-- RedisStore.Set (redis.go lines 27-34). -/
def Set (defaultExpiration : Int) (st : RedisState) (pfx key : String) (v : Int)
    (expires : Int) : RedisState × Option StoreErr :=
  (invoke defaultExpiration st (KeyWithPrefix pfx key) v expires, none)

/-- RedisStore.Add (redis.go lines 37-47): ErrNotStored when the prefixed key
exists, otherwise the value is written via `invoke`. -/
def Add (defaultExpiration : Int) (st : RedisState) (pfx key : String) (v : Int)
    (expires : Int) : RedisState × Option StoreErr :=
  if existsKey st (KeyWithPrefix pfx key) then (st, some .notStored)
  else (invoke defaultExpiration st (KeyWithPrefix pfx key) v expires, none)

/-- RedisStore.Replace (redis.go lines 50-61): ErrNotStored when the prefixed
key is absent, otherwise the value is written via `invoke`. The `value == nil`
check after the write never fires here because the modelled values are
integers (a nil interface value cannot be modelled as a stored integer). -/
def Replace (defaultExpiration : Int) (st : RedisState) (pfx key : String) (v : Int)
    (expires : Int) : RedisState × Option StoreErr :=
  if ¬ existsKey st (KeyWithPrefix pfx key) then (st, some .notStored)
  else (invoke defaultExpiration st (KeyWithPrefix pfx key) v expires, none)

/-- RedisStore.Delete (redis.go lines 87-98): ErrCacheMiss when absent,
otherwise DEL. -/
def Delete (st : RedisState) (pfx key : String) : RedisState × Option StoreErr :=
  if ¬ existsKey st (KeyWithPrefix pfx key) then (st, some .cacheMiss)
  else (aerase (KeyWithPrefix pfx key) st, none)

/-- RedisStore.Increment (redis.go lines 101-126): GET returning nil yields
ErrCacheMiss; otherwise `sum := currentVal + int64(delta)` (int64 wraparound)
is stored with SET and returned reinterpreted as uint64. -/
def Increment (st : RedisState) (pfx key : String) (delta : Nat) :
    RedisState × Nat × Option StoreErr :=
  match alookup (KeyWithPrefix pfx key) st with
  | none => (st, 0, some .cacheMiss)
  | some e =>
    let sum := wrap64 (e.value + i64ofNat delta)
    (aset (KeyWithPrefix pfx key) ⟨sum, 0⟩ st, u64 sum, none)

/-- RedisStore.Decrement (redis.go lines 129-147): absent keys yield
ErrCacheMiss. When `delta > uint64(currentVal)` the code issues
`DECRBY key currentVal`, zeroing the value; otherwise `DECRBY key delta` is
issued. DECRBY's argument is parsed by redis as an int64 (a delta at or above
2^63 is an out-of-range error) and redis rejects int64 underflow instead of
wrapping; both failure modes surface as generic errors. -/
def Decrement (st : RedisState) (pfx key : String) (delta : Nat) :
    RedisState × Nat × Option StoreErr :=
  let kp := KeyWithPrefix pfx key
  match alookup kp st with
  | none => (st, 0, some .cacheMiss)
  | some e =>
    if u64 e.value < delta then
      (aset kp ⟨0, e.ttlSeconds⟩ st, 0, none)
    else if 2 ^ 63 ≤ delta then (st, 0, some .generic)
    else if e.value - delta < -(2 ^ 63) then (st, 0, some .generic)
    else (aset kp ⟨e.value - delta, e.ttlSeconds⟩ st, u64 (e.value - delta), none)

end RedisStore

/-! ### Response capture and replay (src/cache.go)

A gin response writer is modelled as a sink holding the status, the header
multimap and the body written so far. Go header names are kept as given
(gin/net-http canonicalization is orthogonal to every claim here). -/

/-- ResponseCache (cache.go lines 193-197): the persisted unit. -/
structure ResponseCache where
  Status : Nat
  Header : List (String × List String)
  Data : String
deriving DecidableEq, Repr

/-- Outbound response sink (spec section 6): status, headers, body. -/
structure Sink where
  status : Nat
  headers : List (String × List String)
  body : String
deriving DecidableEq, Repr

/-- Header().Set as net/http defines it: the value list under the name is
replaced by the one-element list of the new value. -/
def headerSet (hs : List (String × List String)) (k v : String) :
    List (String × List String) :=
  aset k [v] hs

/-- Header replay loop of replyWithCache (cache.go lines 230-234) and of the
cachePage hit path (lines 408-412): for each stored name, each stored value
is passed to Header().Set in order. Go iterates the header map in
unspecified order; since Set touches only its own name, the resulting sink
does not depend on that order and the model fixes list order. -/
def setHeaders (hs : List (String × List String)) :
    List (String × List String) → List (String × List String)
  | [] => hs
  | (k, vs) :: rest => setHeaders (vs.foldl (fun h v => headerSet h k v) hs) rest

/-- replyWithCache (cache.go lines 221-240): WriteHeader with the stored
status, the Set loop over the stored headers, Write of the stored body, then
Abort. Returns the updated sink and the abort flag. -/
def replyWithCache (sink : Sink) (rc : ResponseCache) : Sink × Bool :=
  let s1 : Sink := { sink with status := rc.Status }
  let s2 : Sink := { s1 with headers := setHeaders s1.headers rc.Header }
  ({ s2 with body := s2.body ++ rc.Data }, true)

/-- Behaviour of the wrapped handler for one request: the response it writes
and whether it aborts the context. -/
structure HandlerSpec where
  status : Nat
  header : List (String × List String)
  body : String
  aborts : Bool
deriving DecidableEq, Repr

/-- Result of the CacheStore.Get read in the middleware. -/
inductive GetRes where
  | ok (rc : ResponseCache)
  | err (e : StoreErr)
deriving DecidableEq, Repr

/-- Read path of the middleware: an injected backend fault (if any) takes
precedence, otherwise presence in the store decides between a hit and a
clean miss. -/
def storeGet (store : List (String × ResponseCache)) (key : String)
    (fault : Option StoreErr) : GetRes :=
  match fault with
  | some e => .err e
  | none =>
    match alookup key store with
    | some rc => .ok rc
    | none => .err .cacheMiss

/-- Observable outcome of one middleware invocation. -/
structure MWOut where
  sink : Sink
  handlerRan : Bool
  aborted : Bool
  store : List (String × ResponseCache)
deriving DecidableEq, Repr

/-- The cache middleware of the singleflight variant for one request
(cache.go lines 56-128, coalescing treated separately): on any Get error the
wrapped handler runs through the recording responseCacheWriter and the
captured response is persisted only when the context was not aborted and the
final status lies in [200, 300); on a hit the stored response is replayed
and the handler never runs. -/
def cacheMiddleware (store : List (String × ResponseCache)) (key : String)
    (fault : Option StoreErr) (h : HandlerSpec) (sink : Sink) : MWOut :=
  match storeGet store key fault with
  | .ok rc =>
    let (s2, ab) := replyWithCache sink rc
    ⟨s2, false, ab, store⟩
  | .err _ =>
    let s2 : Sink :=
      { status := h.status
        headers := setHeaders sink.headers h.header
        body := sink.body ++ h.body }
    let rc : ResponseCache := ⟨h.status, h.header, h.body⟩
    let store2 :=
      if ¬ h.aborts ∧ h.status < 300 ∧ 200 ≤ h.status then aset key rc store
      else store
    ⟨s2, true, h.aborts, store2⟩

/-! ### The cachePage decorator and its cachedWriter (src/cache.go, second
part of the file) -/

/-- Actions a handler can take against the response writer. -/
inductive WOp where
  | setHeader (k v : String)
  | writeHeader (code : Nat)
  | write (data : String)
  | writeString (data : String)
deriving DecidableEq, Repr

/-- State of a cachedWriter together with the underlying sink and the store
it writes through. -/
structure CWState where
  status : Nat
  written : Bool
  size : Int
  sink : Sink
  store : List (String × ResponseCache)
deriving DecidableEq, Repr

/-- newCachedWriter (cache.go lines 313-315): status 0, written false; the
size field keeps Go's zero value 0, so Written() (`size != -1`) is already
true before anything is written — a quirk the model preserves. -/
def cwInit (sink : Sink) (store : List (String × ResponseCache)) : CWState :=
  ⟨0, false, 0, sink, store⟩

/-- One handler action through the cachedWriter (cache.go lines 317-370).
Write persists `{Status(), Header(), data}` whenever the underlying write
succeeded and `Status() < 300` — there is no lower bound on the status and
no abort check here; each Write stores only its own chunk. WriteString skips
its WriteHeader replay because Written() is already true. -/
def cwStep (key : String) (s : CWState) : WOp → CWState
  | .setHeader k v =>
    { s with sink := { s.sink with headers := headerSet s.sink.headers k v } }
  | .writeHeader code =>
    { s with status := code, written := true, sink := { s.sink with status := code } }
  | .write data =>
    let s1 := { s with sink := { s.sink with body := s.sink.body ++ data } }
    if s1.status < 300 then
      { s1 with store := aset key ⟨s1.status, s1.sink.headers, data⟩ s1.store }
    else s1
  | .writeString data =>
    let s1 := { s with
      size := s.size + data.length
      sink := { s.sink with body := s.sink.body ++ data } }
    if s1.status < 300 then
      { s1 with store := aset key ⟨s1.status, s1.sink.headers, data⟩ s1.store }
    else s1

/-- cachePage (cache.go lines 381-416): on any Get error the handler runs
against a fresh cachedWriter and, when the context was aborted, the entry
under the key is deleted before returning; on a hit the stored status,
headers (via Set) and body are replayed without running the handler. -/
def cachePage (store : List (String × ResponseCache)) (key : String)
    (fault : Option StoreErr) (ops : List WOp) (aborted : Bool) (sink : Sink) : MWOut :=
  match storeGet store key fault with
  | .err _ =>
    let final := ops.foldl (cwStep key) (cwInit sink store)
    let store2 := if aborted then aerase key final.store else final.store
    ⟨final.sink, true, aborted, store2⟩
  | .ok rc =>
    let s1 : Sink := { sink with status := rc.Status }
    let s2 : Sink := { s1 with headers := setHeaders s1.headers rc.Header }
    ⟨{ s2 with body := s2.body ++ rc.Data }, false, aborted, store⟩

/-! ### Request coalescing (cache.go lines 100-127) -/

/-- Modelled from the spec: the CoalescingExecutor of spec section 4.4. In
the code it is golang.org/x/sync/singleflight.Group, an external module whose
sources are not part of this repository; cache.go runs `c.Next()` (the
wrapped handler) inside `sfGroup.Do` and replays the shared ResponseCache to
every caller whose own closure did not run. An arrival while no computation
is in flight makes the caller the leader and runs the handler (incrementing
the invocation counter); an arrival during a window joins the waiters; the
completion of the leader's computation delivers the one ResponseCache to the
leader (not shared) and to every waiter (shared). -/
inductive SFEv where
  | arrive (i : Nat)
  | complete (rc : ResponseCache)
deriving DecidableEq, Repr

/-- State of one coalescing key: the in-flight window (leader and the stack
of waiters), the results delivered so far (caller, result, shared-from-in-
flight flag), and the handler invocation counter. -/
structure SFState where
  window : Option (Nat × List Nat)
  delivered : List (Nat × ResponseCache × Bool)
  counter : Nat
deriving DecidableEq, Repr

/-- Initial coalescing state: no window, nothing delivered, counter 0. -/
def SFState.init : SFState := ⟨none, [], 0⟩

/-- One interleaving event of the coalescing executor. -/
def sfStep (s : SFState) : SFEv → SFState
  | .arrive i =>
    match s.window with
    | none => { s with window := some (i, []), counter := s.counter + 1 }
    | some (l, ws) => { s with window := some (l, i :: ws) }
  | .complete rc =>
    match s.window with
    | none => s
    | some (l, ws) =>
      { window := none
        delivered := s.delivered ++ (l, rc, false) :: ws.reverse.map (fun w => (w, rc, true))
        counter := s.counter }

/-- Run of a list of interleaving events. -/
def sfRun (s : SFState) (evs : List SFEv) : SFState := evs.foldl sfStep s

/-! ### Key derivation (cache.go lines 131-186)

`getRequestUriIgnoreQueryOrder` parses the request URI with
`url.ParseRequestURI`, canonicalizes the query by sorting parameter names and,
within a name, values, and rejoins; its caller `CacheByRequestURI` falls back
to the raw request URI when parsing fails. Strings are processed as their
character lists; Go's bytes are modelled as characters (comparison order
agrees, since UTF-8 byte order coincides with codepoint order). -/

/-- Split of a character list at the first occurrence of `c` (strings.Cut /
the path-query split of url.Parse): none when `c` does not occur. -/
def cutChar (c : Char) : List Char → Option (List Char × List Char)
  | [] => none
  | x :: xs =>
    if x = c then some ([], xs)
    else
      match cutChar c xs with
      | none => none
      | some (a, b) => some (x :: a, b)

/-- Split of a character list on every occurrence of `c` (strings.Split as
the query parser consumes it). -/
def splitOnChar (c : Char) : List Char → List (List Char)
  | [] => [[]]
  | x :: xs =>
    match splitOnChar c xs with
    | [] => [[x]]
    | y :: ys => if x = c then [] :: y :: ys else (x :: y) :: ys

/-- Hexadecimal digit test, as net/url `ishex`. -/
def isHexDigit (c : Char) : Bool :=
  c.isDigit || ('a' ≤ c && c ≤ 'f') || ('A' ≤ c && c ≤ 'F')

/-- Value of a hexadecimal digit, as net/url `unhex`. -/
def hexVal (c : Char) : Nat :=
  if c.isDigit then c.toNat - 48
  else if 'a' ≤ c && c ≤ 'f' then c.toNat - 87
  else c.toNat - 55

/-- Percent-decoding as net/url `unescape`: a malformed escape is an error;
`plusToSpace` selects the query-component mode where a plus decodes to a
space (the path mode leaves it). -/
def unescapeChars (plusToSpace : Bool) : List Char → Option (List Char)
  | [] => some []
  | ['%'] => none
  | ['%', _] => none
  | '%' :: a :: b :: rest =>
    if isHexDigit a && isHexDigit b then
      (unescapeChars plusToSpace rest).map
        (fun r => Char.ofNat (16 * hexVal a + hexVal b) :: r)
    else none
  | c :: rest =>
    if c = '+' && plusToSpace then
      (unescapeChars plusToSpace rest).map (fun r => ' ' :: r)
    else (unescapeChars plusToSpace rest).map (fun r => c :: r)

/-- One query segment as url.ParseQuery reads it: cut at the first equals
sign, percent-decode name and value; a decoding failure drops the pair. -/
def parseQueryPair (seg : List Char) : Option (String × String) :=
  let kv := match cutChar '=' seg with
    | none => (seg, ([] : List Char))
    | some (a, b) => (a, b)
  match unescapeChars true kv.1, unescapeChars true kv.2 with
  | some k2, some v2 => some (String.mk k2, String.mk v2)
  | _, _ => none

/-- url.ParseQuery as `parsedUrl.Query()` consumes it (errors discarded):
split on ampersands, skip empty segments and segments holding a semicolon,
parse each remaining segment, drop undecodable pairs. -/
def parseQuery (raw : List Char) : List (String × String) :=
  ((splitOnChar '&' raw).filter
      (fun seg => !seg.isEmpty && !seg.contains ';')).filterMap parseQueryPair

/-- Byte-wise (here character-wise) lexicographic comparison backing Go's
sort.Strings. -/
def leChars : List Char → List Char → Bool
  | [], _ => true
  | _ :: _, [] => false
  | a :: as, b :: bs => if a < b then true else if b < a then false else leChars as bs

/-- Lexicographic order on strings, as sort.Strings compares. -/
def StrLe (a b : String) : Prop := leChars a.data b.data = true

instance : DecidableRel StrLe := fun a b =>
  inferInstanceAs (Decidable (leChars a.data b.data = true))

/-- sort.Strings (cache.go lines 176 and 180). -/
def sortStrings (l : List String) : List String := l.insertionSort StrLe

/-- Query canonicalization of getRequestUriIgnoreQueryOrder (cache.go lines
172-185): parameter names sorted, the values of each name sorted, rejoined
as name=value pairs separated by ampersands. -/
def canonQuery (pairs : List (String × String)) : String :=
  let queryKeys := sortStrings (pairs.map Prod.fst).dedup
  let queryVals := (queryKeys.map (fun k =>
      (sortStrings ((pairs.filter (fun pr => pr.1 == k)).map Prod.snd)).map
        (fun v => k ++ "=" ++ v))).flatten
  String.intercalate "&" queryVals

/-- Control-character test of url.Parse (byte below space, or delete). -/
def hasCtl (l : List Char) : Bool :=
  l.any (fun c => c.toNat < 32 || c.toNat = 127)

/-- getRequestUriIgnoreQueryOrder (cache.go lines 160-186) for request-target
URIs (path plus optional query, the shape CacheByRequestURI feeds it):
url.ParseRequestURI fails on a control character or an invalid percent escape
in the path (the query is stored raw and not validated); with no query
parameters the original URI is returned; otherwise the decoded path is joined
with the canonicalized query. -/
def getRequestUriIgnoreQueryOrder (requestURI : String) : Except Unit String :=
  if hasCtl requestURI.data then .error ()
  else
    let pq := match cutChar '?' requestURI.data with
      | none => (requestURI.data, ([] : List Char))
      | some (p, q) => (p, q)
    match unescapeChars false pq.1 with
    | none => .error ()
    | some path =>
      let values := parseQuery pq.2
      if values.isEmpty then .ok requestURI
      else .ok (String.mk path ++ "?" ++ canonQuery values)

/-- Key derivation of CacheByRequestURI for a GET request (cache.go lines
135-152): the canonicalized URI, or the raw request URI when parsing fails. -/
def cacheKeyByRequestURI (requestURI : String) : String :=
  match getRequestUriIgnoreQueryOrder requestURI with
  | .error _ => requestURI
  | .ok u => u

/-! ### Page-cache key generation (cache.go lines 294-311)

`urlEscape` query-escapes the input and, past 200 bytes, replaces it with the
raw SHA-1 digest of the original; Go strings are byte strings here, modelled
as lists of naturals below 256. -/

/-- Bytes url.QueryEscape leaves unescaped: ASCII alphanumerics and the
unreserved marks minus underscore dot tilde. -/
def queryUnreserved (b : Nat) : Bool :=
  (65 ≤ b && b ≤ 90) || (97 ≤ b && b ≤ 122) || (48 ≤ b && b ≤ 57) ||
  b == 45 || b == 95 || b == 46 || b == 126

/-- Upper-case hexadecimal digit byte of a value below 16. -/
def hexUpper (n : Nat) : Nat := if n < 10 then 48 + n else 55 + n

/-- url.QueryEscape over bytes: a space becomes a plus, unreserved bytes pass
through, every other byte becomes a percent escape. -/
def queryEscape : List Nat → List Nat
  | [] => []
  | b :: rest =>
    (if queryUnreserved b then [b]
     else if b == 32 then [43]
     else [37, hexUpper (b / 16), hexUpper (b % 16)]) ++ queryEscape rest

/-- Left rotation of a 32-bit word (input below 2^32). -/
def rotl32 (b n : Nat) : Nat := ((n <<< b) % 2 ^ 32) ||| (n >>> (32 - b))

/-- Big-endian bytes of a 32-bit word. -/
def wordBE (w : Nat) : List Nat :=
  [(w >>> 24) % 256, (w >>> 16) % 256, (w >>> 8) % 256, w % 256]

/-- Big-endian 64-bit length field of SHA-1 padding. -/
def lenBytes64 (ml : Nat) : List Nat :=
  [(ml >>> 56) % 256, (ml >>> 48) % 256, (ml >>> 40) % 256, (ml >>> 32) % 256,
   (ml >>> 24) % 256, (ml >>> 16) % 256, (ml >>> 8) % 256, ml % 256]

/-- SHA-1 message padding: a 0x80 byte, zeros up to 56 mod 64, then the
bit length. -/
def sha1Pad (msg : List Nat) : List Nat :=
  msg ++ 128 :: (List.replicate ((119 - msg.length % 64) % 64) 0 ++
    lenBytes64 ((8 * msg.length) % 2 ^ 64))

/-- Grouping of the padded message into 64-byte blocks (fuel-driven so the
definition stays structurally recursive). -/
def toBlocks : Nat → List Nat → List (List Nat)
  | 0, _ => []
  | _ + 1, [] => []
  | fuel + 1, l => l.take 64 :: toBlocks fuel (l.drop 64)

/-- Big-endian 32-bit words of a block. -/
def beWords : List Nat → List Nat
  | b0 :: b1 :: b2 :: b3 :: rest =>
    (((b0 * 256 + b1) * 256 + b2) * 256 + b3) :: beWords rest
  | _ => []

/-- Message-schedule expansion, most recent word first: each new word is the
rotation of the xor of the words 3, 8, 14 and 16 places back. -/
def expandRev : Nat → List Nat → List Nat
  | 0, acc => acc
  | k + 1, acc =>
    expandRev k
      (rotl32 1 ((acc.getD 2 0 ^^^ acc.getD 7 0) ^^^ (acc.getD 13 0 ^^^ acc.getD 15 0)) :: acc)

/-- One SHA-1 round over the five-word state, fed the round index and the
schedule word. -/
def sha1Round (st : Nat × Nat × Nat × Nat × Nat) (iw : Nat × Nat) :
    Nat × Nat × Nat × Nat × Nat :=
  let a := st.1; let b := st.2.1; let c := st.2.2.1; let d := st.2.2.2.1
  let e := st.2.2.2.2
  let i := iw.1; let w := iw.2
  let f := if i < 20 then (b &&& c) ||| ((b ^^^ 4294967295) &&& d)
           else if i < 40 then (b ^^^ c) ^^^ d
           else if i < 60 then ((b &&& c) ||| (b &&& d)) ||| (c &&& d)
           else (b ^^^ c) ^^^ d
  let k := if i < 20 then 1518500249 else if i < 40 then 1859775393
           else if i < 60 then 2400959708 else 3395469782
  ((rotl32 5 a + f + e + k + w) % 2 ^ 32, a, rotl32 30 b, c, d)

/-- Compression of one 64-byte block into the running hash state. -/
def sha1Block (h : Nat × Nat × Nat × Nat × Nat) (block : List Nat) :
    Nat × Nat × Nat × Nat × Nat :=
  let ws := (expandRev 64 (beWords block).reverse).reverse
  let r := ws.enum.foldl sha1Round h
  ((h.1 + r.1) % 2 ^ 32, (h.2.1 + r.2.1) % 2 ^ 32, (h.2.2.1 + r.2.2.1) % 2 ^ 32,
   (h.2.2.2.1 + r.2.2.2.1) % 2 ^ 32, (h.2.2.2.2 + r.2.2.2.2) % 2 ^ 32)

/-- Serialization of the final hash state, 20 bytes big-endian. -/
def sha1Out (h : Nat × Nat × Nat × Nat × Nat) : List Nat :=
  wordBE h.1 ++ wordBE h.2.1 ++ wordBE h.2.2.1 ++ wordBE h.2.2.2.1 ++ wordBE h.2.2.2.2

/-- SHA-1 digest of a byte sequence (crypto/sha1 as `h.Sum(nil)` returns it). -/
def sha1Bytes (msg : List Nat) : List Nat :=
  let padded := sha1Pad msg
  sha1Out ((toBlocks padded.length padded).foldl sha1Block
    (1732584193, 4023233417, 2562383102, 271733878, 3285377520))

/-- PageCachePrefix (cache.go line 267), as bytes. -/
def PageCachePrefix : List Nat := "gin.contrib.page.cache".data.map Char.toNat

/-- Colon byte joining prefix and key in urlEscape. -/
def colonByte : Nat := 58

/-- urlEscape (cache.go lines 299-311): query-escape the input; when the
escaped key exceeds 200 bytes use the raw SHA-1 digest of the original
instead; return prefix, colon, key. -/
def urlEscape (pfx u : List Nat) : List Nat :=
  let key := queryEscape u
  let key2 := if 200 < key.length then sha1Bytes u else key
  pfx ++ colonByte :: key2

/-- CreateKey (cache.go lines 295-297). -/
def CreateKey (u : List Nat) (ext : List (List Nat)) : List Nat :=
  urlEscape PageCachePrefix (u ++ ext.flatten)

/-! ## Lemmas about the association-list primitives -/

theorem alookup_aset_self : ∀ (l : List (String × α)) (k : String) (v : α),
    alookup k (aset k v l) = some v
  | [], k, v => by simp [aset, alookup]
  | (k2, v2) :: rest, k, v => by
    by_cases h : k = k2
    · simp [aset, h, alookup]
    · simp [aset, h, alookup, alookup_aset_self rest k v]

theorem alookup_aset_ne : ∀ (l : List (String × α)) (k k2 : String) (v : α),
    k ≠ k2 → alookup k (aset k2 v l) = alookup k l
  | [], k, k2, v, h => by simp [aset, alookup, h]
  | (k3, v3) :: rest, k, k2, v, h => by
    by_cases h2 : k2 = k3
    · subst h2; simp [aset, alookup, h]
    · by_cases h3 : k = k3
      · simp [aset, h2, alookup, h3]
      · simp [aset, h2, alookup, h3, alookup_aset_ne rest k k2 v h]

theorem alookup_aerase_self : ∀ (l : List (String × α)) (k : String),
    alookup k (aerase k l) = none
  | [], k => by simp [aerase, alookup]
  | (k2, v2) :: rest, k => by
    by_cases h : k = k2
    · subst h; simp [aerase, alookup_aerase_self rest k]
    · simp [aerase, h, alookup, alookup_aerase_self rest k]

/-! ## C10: in-memory Get with a non-settable destination -/

/-- C10: for every key holding a live value in the in-memory store, Get with
a destination that is not a settable pointer returns ErrNotStored (neither
the stored value nor ErrCacheMiss: nothing is written through the
destination), and the store is left unchanged. -/
theorem inMemoryGet_notSettable (c : GoCache) (key : String) (v : Int)
    (h : c.getItem key = some v) :
    InMemoryStore.Get c key false = ⟨c, none, some .notStored⟩ := by
  simp [InMemoryStore.Get, h]

/-- Witness for C10 at a concrete store: the key `k` holds 10 live, and Get
with a non-settable destination returns ErrNotStored, writes nothing and
leaves the store unchanged. -/
theorem inMemoryGet_notSettable_witness :
    GoCache.getItem ⟨[("k", ⟨10, 0⟩)], 0, 100⟩ "k" = some 10 ∧
    InMemoryStore.Get ⟨[("k", ⟨10, 0⟩)], 0, 100⟩ "k" false =
      ⟨⟨[("k", ⟨10, 0⟩)], 0, 100⟩, none, some .notStored⟩ :=
  ⟨by decide, inMemoryGet_notSettable _ _ 10 (by decide)⟩

/-! ## C5: Add/Replace semantics -/

theorem alookup_invoke_self (dflt : Int) (st : RedisState) (k : String) (v expires : Int) :
    ∃ e : REntry, alookup k (RedisStore.invoke dflt st k v expires) = some e ∧ e.value = v := by
  unfold RedisStore.invoke
  split
  all_goals refine ⟨_, alookup_aset_self .., ?_⟩
  all_goals rfl

theorem alookup_set_self (c : GoCache) (k : String) (v d : Int) :
    ∃ it : GCItem, alookup k (c.set k v d).items = some it ∧ it.object = v := by
  unfold GoCache.set
  refine ⟨_, alookup_aset_self .., ?_⟩
  rfl

/-- C5 counterexample: the in-memory store's Add on a key already holding a
live value fails, but with the go-cache backend's generic error, not with
ErrNotStored as the claim states (inmemory.go line 44 returns the go-cache
error verbatim, unlike Replace on line 51 which maps it). -/
theorem inMemoryAdd_error_counterexample :
    InMemoryStore.Add ⟨[("k", ⟨1, 0⟩)], 0, 100⟩ "k" 2 3600 =
      (⟨[("k", ⟨1, 0⟩)], 0, 100⟩, some .generic) ∧
    StoreErr.generic ≠ StoreErr.notStored := by
  constructor
  · decide
  · decide

/-- C5 amended: the Redis store's Add fails with ErrNotStored exactly when
the (prefixed) key exists and otherwise stores the value; its Replace fails
with ErrNotStored exactly when the key is absent and otherwise updates it.
The in-memory store's Replace likewise fails with ErrNotStored on a key with
no live value and updates a live one; its Add refuses a key holding a live
value — but returns the backend's generic error rather than ErrNotStored —
and stores the value when no live value exists. -/
theorem add_replace_semantics (dflt : Int) (st : RedisState) (pfx key : String)
    (v expires : Int) (c : GoCache) (w d : Int) :
    (RedisStore.existsKey st (RedisStore.KeyWithPrefix pfx key) = true →
      RedisStore.Add dflt st pfx key v expires = (st, some .notStored)) ∧
    (RedisStore.existsKey st (RedisStore.KeyWithPrefix pfx key) = false →
      (RedisStore.Add dflt st pfx key v expires).2 = none ∧
      ∃ e : REntry, alookup (RedisStore.KeyWithPrefix pfx key)
          (RedisStore.Add dflt st pfx key v expires).1 = some e ∧ e.value = v) ∧
    (RedisStore.existsKey st (RedisStore.KeyWithPrefix pfx key) = false →
      RedisStore.Replace dflt st pfx key v expires = (st, some .notStored)) ∧
    (RedisStore.existsKey st (RedisStore.KeyWithPrefix pfx key) = true →
      (RedisStore.Replace dflt st pfx key v expires).2 = none ∧
      ∃ e : REntry, alookup (RedisStore.KeyWithPrefix pfx key)
          (RedisStore.Replace dflt st pfx key v expires).1 = some e ∧ e.value = v) ∧
    (c.getItem key = some w → InMemoryStore.Add c key v d = (c, some .generic)) ∧
    (c.getItem key = none →
      (InMemoryStore.Add c key v d).2 = none ∧
      ∃ it : GCItem, alookup key (InMemoryStore.Add c key v d).1.items = some it ∧
        it.object = v) ∧
    (c.getItem key = none → InMemoryStore.Replace c key v d = (c, some .notStored)) ∧
    (c.getItem key = some w →
      (InMemoryStore.Replace c key v d).2 = none ∧
      ∃ it : GCItem, alookup key (InMemoryStore.Replace c key v d).1.items = some it ∧
        it.object = v) := by
  refine ⟨fun h => ?_, fun h => ?_, fun h => ?_, fun h => ?_,
    fun h => ?_, fun h => ?_, fun h => ?_, fun h => ?_⟩
  · simp [RedisStore.Add, h]
  · have hadd : RedisStore.Add dflt st pfx key v expires =
        (RedisStore.invoke dflt st (RedisStore.KeyWithPrefix pfx key) v expires, none) := by
      simp [RedisStore.Add, h]
    rw [hadd]
    exact ⟨rfl, alookup_invoke_self ..⟩
  · simp [RedisStore.Replace, h]
  · have hrep : RedisStore.Replace dflt st pfx key v expires =
        (RedisStore.invoke dflt st (RedisStore.KeyWithPrefix pfx key) v expires, none) := by
      simp [RedisStore.Replace, h]
    rw [hrep]
    exact ⟨rfl, alookup_invoke_self ..⟩
  · simp [InMemoryStore.Add, GoCache.add, h]
  · have hadd : InMemoryStore.Add c key v d = (c.set key v d, none) := by
      simp [InMemoryStore.Add, GoCache.add, h]
    rw [hadd]
    exact ⟨rfl, alookup_set_self ..⟩
  · simp [InMemoryStore.Replace, GoCache.replace, h]
  · have hrep : InMemoryStore.Replace c key v d = (c.set key v d, none) := by
      simp [InMemoryStore.Replace, GoCache.replace, h]
    rw [hrep]
    exact ⟨rfl, alookup_set_self ..⟩

/-- Witness for C5 at concrete stores: a live key in a one-entry Redis state
refuses Add, an absent key refuses Replace, and the empty in-memory store
refuses Replace with ErrNotStored. -/
theorem add_replace_semantics_witness :
    RedisStore.Add 0 [("k", ⟨1, 0⟩)] "" "k" 2 0 = ([("k", ⟨1, 0⟩)], some .notStored) ∧
    RedisStore.Replace 0 [("j", ⟨1, 0⟩)] "" "k" 2 0 = ([("j", ⟨1, 0⟩)], some .notStored) ∧
    InMemoryStore.Replace ⟨[], 0, 100⟩ "k" 2 0 = (⟨[], 0, 100⟩, some .notStored) :=
  ⟨(add_replace_semantics 0 [("k", ⟨1, 0⟩)] "" "k" 2 0 ⟨[], 0, 100⟩ 1 0).1 (by decide),
    (add_replace_semantics 0 [("j", ⟨1, 0⟩)] "" "k" 2 0 ⟨[], 0, 100⟩ 1 0).2.2.1 (by decide),
    (add_replace_semantics 0 [] "" "k" 2 0 ⟨[], 0, 100⟩ 1 0).2.2.2.2.2.2.1 (by decide)⟩

/-! ## C6: Increment/Decrement semantics -/

theorem u64_toNat_of_range (v : Int) (h0 : 0 ≤ v) (h : v < 2 ^ 64) : u64 v = v.toNat := by
  unfold u64
  rw [Int.emod_eq_of_lt h0 h]

/-- C6 counterexample: on the in-memory store, decrementing a key holding 10
by 3 returns 3 — the delta — not the new value 7 = max(10-3, 0); and
decrementing a key holding 3 by 5 leaves -2 in the store, not 0, so the
result is not clamped at zero either. -/
theorem inMemoryDecrement_counterexample :
    (InMemoryStore.Decrement ⟨[("k", ⟨10, 0⟩)], 0, 100⟩ "k" 3).2.1 = 3 ∧
    (3 : Nat) ≠ ((10 : Int) - 3 ⊔ 0).toNat ∧
    (InMemoryStore.Decrement ⟨[("k", ⟨3, 0⟩)], 0, 100⟩ "k" 5).1.items =
      [("k", ⟨-2, 0⟩)] := by
  refine ⟨by decide, by decide, by decide⟩

/-- C6 amended: the Redis store's Decrement of a key holding v (0 ≤ v < 2^63)
by d returns max(v - d, 0) — clamped at zero — and stores that value; both
Redis Increment and Decrement return ErrCacheMiss on an absent key, as do the
in-memory Increment and Decrement when the key holds no live value. The
in-memory Decrement of a live key, however, returns the delta d itself (not
the new value) while storing the unclamped difference. -/
theorem decrement_semantics (st : RedisState) (pfx key : String) (delta : Nat)
    (v : Int) (t : Nat) (c : GoCache) :
    (alookup (RedisStore.KeyWithPrefix pfx key) st = some ⟨v, t⟩ → 0 ≤ v → v < 2 ^ 63 →
      RedisStore.Decrement st pfx key delta =
        (aset (RedisStore.KeyWithPrefix pfx key) ⟨(v - (delta : Int)) ⊔ 0, t⟩ st,
          ((v - (delta : Int)) ⊔ 0).toNat, none)) ∧
    (alookup (RedisStore.KeyWithPrefix pfx key) st = none →
      RedisStore.Decrement st pfx key delta = (st, 0, some .cacheMiss) ∧
      RedisStore.Increment st pfx key delta = (st, 0, some .cacheMiss)) ∧
    (c.getItem key = none →
      InMemoryStore.Decrement c key delta = (c, 0, some .cacheMiss) ∧
      InMemoryStore.Increment c key delta = (c, 0, some .cacheMiss)) ∧
    (∀ it : GCItem, alookup key c.items = some it →
      ¬ (0 < it.expiration ∧ it.expiration < c.now) →
      InMemoryStore.Decrement c key delta =
        (⟨aset key ⟨wrap64 (it.object - i64ofNat delta), it.expiration⟩ c.items,
            c.defaultExpiration, c.now⟩,
          delta, none)) := by
  refine ⟨fun h h0 hlt => ?_, fun h => ?_, fun h => ?_, fun it h hexp => ?_⟩
  · have hv : (v.toNat : Int) = v := Int.toNat_of_nonneg h0
    have hu : u64 v = v.toNat := u64_toNat_of_range v h0 (by omega)
    rcases Nat.lt_or_ge v.toNat delta with hd | hd
    · have hmax : (v - (delta : Int)) ⊔ 0 = 0 := by
        rw [max_eq_right]; omega
      simp only [RedisStore.Decrement, h, hu, hmax, if_pos hd]
      rfl
    · have hnd : ¬ u64 v < delta := by omega
      have h63 : ¬ 2 ^ 63 ≤ delta := by omega
      have hgap : ¬ v - (delta : Int) < -(2 ^ 63) := by omega
      have hmax : (v - (delta : Int)) ⊔ 0 = v - (delta : Int) := by
        rw [max_eq_left]; omega
      have hu2 : u64 (v - (delta : Int)) = (v - (delta : Int)).toNat :=
        u64_toNat_of_range _ (by omega) (by omega)
      simp only [RedisStore.Decrement, h, if_neg hnd, if_neg h63, if_neg hgap, hmax, hu2]
  · constructor
    · simp [RedisStore.Decrement, h]
    · simp [RedisStore.Increment, h]
  · unfold GoCache.getItem at h
    constructor
    · unfold InMemoryStore.Decrement GoCache.decrement
      rcases ha : alookup key c.items with _ | it

      · simp
      · rw [ha] at h
        simp only [ha]
        have : 0 < it.expiration ∧ it.expiration < c.now := by
          by_contra hc
          simp [hc] at h
        simp [this]
    · unfold InMemoryStore.Increment GoCache.increment
      rcases ha : alookup key c.items with _ | it
      · simp
      · rw [ha] at h
        simp only [ha]
        have : 0 < it.expiration ∧ it.expiration < c.now := by
          by_contra hc
          simp [hc] at h
        simp [this]
  · unfold InMemoryStore.Decrement GoCache.decrement
    simp only [h, if_neg hexp]

/-- Witness for C6 at concrete stores: a Redis key holding 10 decremented by
3 yields 7, decremented by 50 yields 0 (clamped); absent keys miss on both
stores. -/
theorem decrement_semantics_witness :
    RedisStore.Decrement [("k", ⟨10, 0⟩)] "" "k" 3 =
      (aset "k" ⟨((10 : Int) - 3) ⊔ 0, 0⟩ [("k", ⟨10, 0⟩)], (((10 : Int) - 3) ⊔ 0).toNat, none) ∧
    RedisStore.Decrement [("k", ⟨10, 0⟩)] "" "k" 50 =
      (aset "k" ⟨((10 : Int) - 50) ⊔ 0, 0⟩ [("k", ⟨10, 0⟩)], (((10 : Int) - 50) ⊔ 0).toNat, none) ∧
    RedisStore.Increment [] "" "k" 3 = ([], 0, some .cacheMiss) ∧
    InMemoryStore.Decrement ⟨[], 0, 100⟩ "k" 3 = (⟨[], 0, 100⟩, 0, some .cacheMiss) :=
  ⟨(decrement_semantics [("k", ⟨10, 0⟩)] "" "k" 3 10 0 ⟨[], 0, 100⟩).1
      (by decide) (by decide) (by decide),
    (decrement_semantics [("k", ⟨10, 0⟩)] "" "k" 50 10 0 ⟨[], 0, 100⟩).1
      (by decide) (by decide) (by decide),
    ((decrement_semantics [] "" "k" 3 0 0 ⟨[], 0, 100⟩).2.1 (by decide)).2,
    ((decrement_semantics [] "" "k" 3 0 0 ⟨[], 0, 100⟩).2.2.1 (by decide)).1⟩

/-! ## C3: replay fidelity on a cache hit -/

theorem alookup_foldl_headerSet_same : ∀ (vs : List String)
    (hs : List (String × List String)) (k x : String), vs.getLast? = some x →
    alookup k (vs.foldl (fun h v => headerSet h k v) hs) = some [x]
  | [], hs, k, x, h => by simp at h
  | [v], hs, k, x, h => by
    simp at h
    subst h
    simpa [headerSet] using alookup_aset_self hs k [v]
  | v :: w :: ws, hs, k, x, h => by
    rw [List.getLast?_cons_cons] at h
    simpa using alookup_foldl_headerSet_same (w :: ws) (headerSet hs k v) k x h

theorem alookup_foldl_headerSet_ne : ∀ (vs : List String)
    (hs : List (String × List String)) (k k1 : String), k ≠ k1 →
    alookup k (vs.foldl (fun h v => headerSet h k1 v) hs) = alookup k hs
  | [], hs, k, k1, h => rfl
  | v :: vs, hs, k, k1, h => by
    simpa [alookup_aset_ne hs k k1 [v] h, headerSet]
      using alookup_foldl_headerSet_ne vs (headerSet hs k1 v) k k1 h

theorem alookup_setHeaders_notmem : ∀ (entries hs : List (String × List String))
    (k : String), k ∉ entries.map Prod.fst →
    alookup k (setHeaders hs entries) = alookup k hs
  | [], hs, k, h => rfl
  | (k1, vs1) :: rest, hs, k, h => by
    rw [List.map_cons] at h
    have hk1 : k ≠ k1 := fun he => h (List.mem_cons.mpr (Or.inl he))
    have hrest : k ∉ rest.map Prod.fst := fun hm => h (List.mem_cons.mpr (Or.inr hm))
    calc alookup k (setHeaders hs ((k1, vs1) :: rest))
        = alookup k (setHeaders (vs1.foldl (fun h v => headerSet h k1 v) hs) rest) := rfl
      _ = alookup k (vs1.foldl (fun h v => headerSet h k1 v) hs) :=
          alookup_setHeaders_notmem rest _ k hrest
      _ = alookup k hs := alookup_foldl_headerSet_ne vs1 hs k k1 hk1

theorem alookup_setHeaders : ∀ (entries hs : List (String × List String))
    (k x : String) (vs : List String), (entries.map Prod.fst).Nodup →
    alookup k entries = some vs → vs.getLast? = some x →
    alookup k (setHeaders hs entries) = some [x]
  | [], hs, k, x, vs, hnd, hlk, hx => by simp [alookup] at hlk
  | (k1, vs1) :: rest, hs, k, x, vs, hnd, hlk, hx => by
    rw [List.map_cons, List.nodup_cons] at hnd
    by_cases hk : k = k1
    · subst hk
      rw [alookup, if_pos rfl] at hlk
      injection hlk with hlk
      calc alookup k (setHeaders hs ((k, vs1) :: rest))
          = alookup k (setHeaders (vs1.foldl (fun h v => headerSet h k v) hs) rest) := rfl
        _ = alookup k (vs1.foldl (fun h v => headerSet h k v) hs) :=
            alookup_setHeaders_notmem rest _ k hnd.1
        _ = some [x] := alookup_foldl_headerSet_same vs1 hs k x (hlk ▸ hx)
    · rw [alookup, if_neg hk] at hlk
      exact alookup_setHeaders rest _ k x vs hnd.2 hlk hx

/-- C3 counterexample: with the entry `{status 200, X-A: ["1", "2"], body
"hi"}` stored under `k`, the cache-hit replay delivers header X-A with the
single value "2" — the Set-based loop overwrote "1" — not the stored list
["1", "2"] as the claim requires. -/
theorem replay_header_counterexample :
    (cacheMiddleware [("k", ⟨200, [("X-A", ["1", "2"])], "hi"⟩)] "k" none
        ⟨0, [], "", false⟩ ⟨0, [], ""⟩).sink.headers = [("X-A", ["2"])] ∧
    (["2"] : List String) ≠ ["1", "2"] := by
  refine ⟨by decide, by decide⟩

/-- C3 amended: a request hitting the cache under a stored entry receives
exactly the stored status and body without the handler being invoked, and for
each stored header name it receives the last stored value of that name only:
the replay loop calls Header().Set per value, so every value but the last is
overwritten. -/
theorem replay_fidelity (store : List (String × ResponseCache)) (key : String)
    (rc : ResponseCache) (h : HandlerSpec) (sink : Sink)
    (hnd : (rc.Header.map Prod.fst).Nodup)
    (hlk : alookup key store = some rc) :
    (cacheMiddleware store key none h sink).handlerRan = false ∧
    (cacheMiddleware store key none h sink).sink.status = rc.Status ∧
    (cacheMiddleware store key none h sink).sink.body = sink.body ++ rc.Data ∧
    (∀ k2 x vs, alookup k2 rc.Header = some vs → vs.getLast? = some x →
      alookup k2 (cacheMiddleware store key none h sink).sink.headers = some [x]) := by
  have hmw : cacheMiddleware store key none h sink =
      ⟨⟨rc.Status, setHeaders sink.headers rc.Header, sink.body ++ rc.Data⟩,
        false, true, store⟩ := by
    simp [cacheMiddleware, storeGet, hlk, replyWithCache]
  rw [hmw]
  exact ⟨rfl, rfl, rfl, fun k2 x vs hvs hx => alookup_setHeaders _ _ _ _ _ hnd hvs hx⟩

/-- Witness for C3 at a concrete store: the entry `{200, X-B: ["7"], "hi"}`
replays with status 200, body "hi", header X-B = ["7"], handler not run. -/
theorem replay_fidelity_witness :
    (cacheMiddleware [("k", ⟨200, [("X-B", ["7"])], "hi"⟩)] "k" none
        ⟨0, [], "", false⟩ ⟨0, [], ""⟩).handlerRan = false ∧
    (cacheMiddleware [("k", ⟨200, [("X-B", ["7"])], "hi"⟩)] "k" none
        ⟨0, [], "", false⟩ ⟨0, [], ""⟩).sink.status = 200 ∧
    alookup "X-B" (cacheMiddleware [("k", ⟨200, [("X-B", ["7"])], "hi"⟩)] "k" none
        ⟨0, [], "", false⟩ ⟨0, [], ""⟩).sink.headers = some ["7"] := by
  obtain ⟨h1, h2, h3, h4⟩ := replay_fidelity [("k", ⟨200, [("X-B", ["7"])], "hi"⟩)] "k"
    ⟨200, [("X-B", ["7"])], "hi"⟩ ⟨0, [], "", false⟩ ⟨0, [], ""⟩ (by decide) (by decide)
  exact ⟨h1, h2, h4 "X-B" "7" ["7"] (by decide) (by decide)⟩

/-! ## C2: which statuses are persisted -/

/-- C2 counterexample: on the cachePage path, a handler that writes header
status 100 and a body chunk produces a persisted entry under its key — the
cachedWriter checks only `Status() < 300`, with no lower bound of 200 — so an
entry is persisted although 200 ≤ status fails. -/
theorem persist_window_counterexample :
    alookup "k" (cachePage [] "k" none [.writeHeader 100, .write "x"] false
        ⟨0, [], ""⟩).store = some ⟨100, [], "x"⟩ ∧
    ¬ 200 ≤ 100 := by
  refine ⟨by decide, by decide⟩

/-- C2 amended: on the singleflight middleware path an entry is persisted if
and only if the request was not aborted and the final status lies in
[200, 300) — so 404 is never persisted and 204 always is. On the cachePage
path the cachedWriter persists on a successful body write exactly when the
current status is below 300: there is no 200 lower bound there (a 1xx
status is persisted), and a response that never writes a body is not
persisted by the writer at all. -/
theorem persisted_iff_2xx (store : List (String × ResponseCache)) (key : String)
    (fault : Option StoreErr) (h : HandlerSpec) (sink : Sink) (s : Nat) (b : String)
    (hmiss : alookup key store = none) :
    (alookup key (cacheMiddleware store key fault h sink).store =
        some ⟨h.status, h.header, h.body⟩ ↔
      ¬ h.aborts ∧ h.status < 300 ∧ 200 ≤ h.status) ∧
    (alookup key (cachePage store key fault [.writeHeader s, .write b] false
        sink).store = some ⟨s, sink.headers, b⟩ ↔ s < 300) := by
  have hget : ∃ e, storeGet store key fault = .err e := by
    unfold storeGet
    rcases fault with _ | e
    · rw [hmiss]; exact ⟨.cacheMiss, rfl⟩
    · exact ⟨e, rfl⟩
  obtain ⟨e, hget⟩ := hget
  constructor
  · unfold cacheMiddleware
    rw [hget]
    by_cases hc : ¬ h.aborts ∧ h.status < 300 ∧ 200 ≤ h.status
    · simp only [if_pos hc]
      simp [alookup_aset_self, hc]
    · simp only [if_neg hc]
      simp only [hmiss]
      constructor
      · intro hfalse
        exact absurd hfalse (by simp)
      · intro hcond
        exact absurd hcond hc
  · unfold cachePage
    rw [hget]
    by_cases hs : s < 300
    · simp [cwStep, cwInit, hs, alookup_aset_self]
    · simp [cwStep, cwInit, hs, hmiss]

/-- Witness for C2 at concrete inputs: a 204 handler response is persisted,
a 404 one is not, and a cachePage write under status 204 is persisted. -/
theorem persisted_iff_2xx_witness :
    alookup "k" (cacheMiddleware [] "k" none ⟨204, [], "", false⟩ ⟨0, [], ""⟩).store =
      some ⟨204, [], ""⟩ ∧
    ¬ alookup "k" (cacheMiddleware [] "k" none ⟨404, [], "x", false⟩ ⟨0, [], ""⟩).store =
      some ⟨404, [], "x"⟩ ∧
    alookup "k" (cachePage [] "k" none [.writeHeader 204, .write "x"] false
      ⟨0, [], ""⟩).store = some ⟨204, [], "x"⟩ :=
  ⟨(persisted_iff_2xx [] "k" none ⟨204, [], "", false⟩ ⟨0, [], ""⟩ 0 "" (by decide)).1.mpr
      (by decide),
    fun hp => absurd ((persisted_iff_2xx [] "k" none ⟨404, [], "x", false⟩ ⟨0, [], ""⟩
      0 "" (by decide)).1.mp hp) (by decide),
    (persisted_iff_2xx [] "k" none ⟨204, [], "", false⟩ ⟨0, [], ""⟩ 204 "x"
      (by decide)).2.mpr (by decide)⟩

/-! ## C4: abort cleanup on the cachePage miss path -/

/-- C4: when a request on the cachePage cache-miss path is explicitly
aborted, the entry under its key (whatever the handler wrote during the
request) is deleted before the middleware returns: no entry under that key is
retrievable afterward. -/
theorem abort_deletes_entry (store : List (String × ResponseCache)) (key : String)
    (fault : Option StoreErr) (ops : List WOp) (sink : Sink) (e : StoreErr)
    (hmiss : storeGet store key fault = .err e) :
    alookup key (cachePage store key fault ops true sink).store = none := by
  unfold cachePage
  rw [hmiss]
  simp [alookup_aerase_self]

/-- Witness for C4 at a concrete input: the backend read fails, the handler
writes a 200 entry, the request is aborted — and the pre-existing entry under
`k` together with the new write are gone afterward. -/
theorem abort_deletes_entry_witness :
    alookup "k" (cachePage [("k", ⟨200, [], "old"⟩)] "k" (some .generic)
      [.writeHeader 200, .write "x"] true ⟨0, [], ""⟩).store = none :=
  abort_deletes_entry [("k", ⟨200, [], "old"⟩)] "k" (some .generic)
    [.writeHeader 200, .write "x"] ⟨0, [], ""⟩ .generic (by decide)

/-! ## C9: cache-layer read errors fall through to the handler -/

/-- C9: any error from the store's Get on the read path — the clean cache
miss or any other read error — makes both middleware variants run the
wrapped handler, whose response is what the request is served (status and
body land on the sink), so no cache-layer error prevents the request from
being served. -/
theorem read_errors_fall_through (store : List (String × ResponseCache))
    (key : String) (fault : Option StoreErr) (h : HandlerSpec) (ops : List WOp)
    (ab : Bool) (sink : Sink) (e : StoreErr)
    (herr : storeGet store key fault = .err e) :
    (cacheMiddleware store key fault h sink).handlerRan = true ∧
    (cacheMiddleware store key fault h sink).sink.status = h.status ∧
    (cacheMiddleware store key fault h sink).sink.body = sink.body ++ h.body ∧
    (cachePage store key fault ops ab sink).handlerRan = true := by
  unfold cacheMiddleware cachePage
  rw [herr]
  exact ⟨rfl, rfl, rfl, rfl⟩

/-- Witness for C9 at a concrete input: a generic backend failure (not a
clean miss) on a store that even holds the key still runs the handler on
both paths and serves its 503 response. -/
theorem read_errors_fall_through_witness :
    (cacheMiddleware [("k", ⟨200, [], "old"⟩)] "k" (some .generic)
      ⟨503, [], "svc", false⟩ ⟨0, [], ""⟩).handlerRan = true ∧
    (cacheMiddleware [("k", ⟨200, [], "old"⟩)] "k" (some .generic)
      ⟨503, [], "svc", false⟩ ⟨0, [], ""⟩).sink.status = 503 ∧
    (cachePage [("k", ⟨200, [], "old"⟩)] "k" (some .generic) [] false
      ⟨0, [], ""⟩).handlerRan = true := by
  obtain ⟨h1, h2, h3, h4⟩ := read_errors_fall_through [("k", ⟨200, [], "old"⟩)] "k"
    (some .generic) ⟨503, [], "svc", false⟩ [] false ⟨0, [], ""⟩ .generic (by decide)
  exact ⟨h1, h2, h4⟩

/-! ## C1: coalescing executes the handler at most once per window -/

theorem sfRun_arrive_batch : ∀ (is : List Nat) (l : Nat) (ws : List Nat)
    (d : List (Nat × ResponseCache × Bool)) (cnt : Nat),
    sfRun ⟨some (l, ws), d, cnt⟩ (is.map SFEv.arrive) = ⟨some (l, is.reverse ++ ws), d, cnt⟩
  | [], l, ws, d, cnt => rfl
  | i :: is, l, ws, d, cnt => by
    have h1 : sfRun ⟨some (l, ws), d, cnt⟩ ((i :: is).map SFEv.arrive) =
        sfRun ⟨some (l, i :: ws), d, cnt⟩ (is.map SFEv.arrive) := rfl
    rw [h1, sfRun_arrive_batch is l (i :: ws) d cnt]
    simp

/-- C1: when N callers arrive for the same key while no result has been
produced yet (any arrival order) and then the in-flight computation
completes, the handler invocation counter is exactly 1 — only the first
caller ran the wrapped handler — and every caller is delivered the one
shared ResponseCache (the same status and body), the first as the executing
caller and all later arrivals as shared-from-in-flight waiters. -/
theorem coalesced_single_execution (i0 : Nat) (is : List Nat) (rc : ResponseCache) :
    sfRun SFState.init ((i0 :: is).map SFEv.arrive ++ [SFEv.complete rc]) =
      ⟨none, (i0, rc, false) :: is.map (fun w => (w, rc, true)), 1⟩ := by
  have h1 : sfRun SFState.init ((i0 :: is).map SFEv.arrive) =
      ⟨some (i0, is.reverse), [], 1⟩ := by
    have h0 : sfRun SFState.init ((i0 :: is).map SFEv.arrive) =
        sfRun ⟨some (i0, []), [], 1⟩ (is.map SFEv.arrive) := rfl
    rw [h0, sfRun_arrive_batch is i0 [] [] 1]
    simp
  have h2 : sfRun SFState.init ((i0 :: is).map SFEv.arrive ++ [SFEv.complete rc]) =
      sfStep (sfRun SFState.init ((i0 :: is).map SFEv.arrive)) (.complete rc) := by
    simp [sfRun, List.foldl_append]
  rw [h2, h1]
  simp [sfStep]

/-! ## C7: key derivation and query-parameter order -/

theorem leChars_total : ∀ a b : List Char, leChars a b = true ∨ leChars b a = true
  | [], _ => Or.inl rfl
  | _ :: _, [] => Or.inr rfl
  | a :: as, b :: bs => by
    rcases lt_trichotomy a b with h | h | h
    · left; simp [leChars, h]
    · subst h
      simp only [leChars, lt_self_iff_false, if_false]
      exact leChars_total as bs
    · have h2 : ¬ a < b := lt_asymm h
      right; simp [leChars, h, h2]

theorem leChars_trans : ∀ a b c : List Char,
    leChars a b = true → leChars b c = true → leChars a c = true
  | [], _, _, _, _ => rfl
  | _ :: _, [], _, h1, _ => by simp [leChars] at h1
  | _ :: _, _ :: _, [], _, h2 => by simp [leChars] at h2
  | x :: xs, y :: ys, z :: zs, h1, h2 => by
    simp only [leChars] at h1 h2 ⊢
    rcases lt_trichotomy x y with hxy | hxy | hxy
    · rcases lt_trichotomy y z with hyz | hyz | hyz
      · simp [lt_trans hxy hyz]
      · subst hyz; simp [hxy]
      · rw [if_neg (lt_asymm hyz), if_pos hyz] at h2
        exact absurd h2 (by simp)
    · subst hxy
      rcases lt_trichotomy x z with hyz | hyz | hyz
      · simp [hyz]
      · subst hyz
        simp only [lt_self_iff_false, if_false] at h1 h2 ⊢
        exact leChars_trans xs ys zs h1 h2
      · rw [if_neg (lt_asymm hyz), if_pos hyz] at h2
        exact absurd h2 (by simp)
    · rw [if_neg (lt_asymm hxy), if_pos hxy] at h1
      exact absurd h1 (by simp)

theorem leChars_antisymm : ∀ a b : List Char,
    leChars a b = true → leChars b a = true → a = b
  | [], [], _, _ => rfl
  | [], _ :: _, _, h2 => by simp [leChars] at h2
  | _ :: _, [], h1, _ => by simp [leChars] at h1
  | x :: xs, y :: ys, h1, h2 => by
    simp only [leChars] at h1 h2
    rcases lt_trichotomy x y with h | h | h
    · rw [if_neg (lt_asymm h), if_pos h] at h2
      exact absurd h2 (by simp)
    · subst h
      simp only [lt_self_iff_false, if_false] at h1 h2
      rw [leChars_antisymm xs ys h1 h2]
    · rw [if_neg (lt_asymm h), if_pos h] at h1
      exact absurd h1 (by simp)

instance : IsTotal String StrLe := ⟨fun a b => leChars_total a.data b.data⟩

instance : IsTrans String StrLe :=
  ⟨fun a b c h1 h2 => leChars_trans a.data b.data c.data h1 h2⟩

instance : IsAntisymm String StrLe :=
  ⟨fun a b h1 h2 => by
    cases a with
    | mk da =>
      cases b with
      | mk db => exact congrArg String.mk (leChars_antisymm da db h1 h2)⟩

theorem sortStrings_eq_of_perm (l1 l2 : List String) (h : l1.Perm l2) :
    sortStrings l1 = sortStrings l2 :=
  List.eq_of_perm_of_sorted
    ((List.perm_insertionSort _ _).trans (h.trans (List.perm_insertionSort _ _).symm))
    (List.sorted_insertionSort _ _) (List.sorted_insertionSort _ _)

theorem canonQuery_perm (p1 p2 : List (String × String)) (h : p1.Perm p2) :
    canonQuery p1 = canonQuery p2 := by
  unfold canonQuery
  have hkeys : sortStrings (p1.map Prod.fst).dedup = sortStrings (p2.map Prod.fst).dedup :=
    sortStrings_eq_of_perm _ _ (h.map Prod.fst).dedup
  have hfun : (fun k : String =>
        (sortStrings ((p1.filter (fun pr => pr.1 == k)).map Prod.snd)).map
          (fun v => k ++ "=" ++ v)) =
      (fun k : String =>
        (sortStrings ((p2.filter (fun pr => pr.1 == k)).map Prod.snd)).map
          (fun v => k ++ "=" ++ v)) :=
    funext fun k => by
      rw [sortStrings_eq_of_perm _ _ ((h.filter (fun pr => pr.1 == k)).map Prod.snd)]
  rw [hkeys, hfun]

/-- C7 counterexample: the two request URIs differ only in the physical
order of their query parameters, but the path holds the invalid escape %zz,
so url.ParseRequestURI fails, CacheByRequestURI falls back to the raw URI,
and the two derived keys differ. -/
theorem key_order_counterexample :
    cacheKeyByRequestURI "/p%zz?b=2&a=1" ≠ cacheKeyByRequestURI "/p%zz?a=1&b=2" := by
  decide

/-- C7 amended: for every pair of request URIs with the same parseable path
(no control characters, path escapes valid) whose query strings carry the
same parameters in different physical order (their ampersand segments are a
permutation of one another) and at least one parameter, the derived cache
keys are identical; only when url.ParseRequestURI rejects the URI does the
derivation fall back to the raw, order-sensitive URI. -/
theorem key_query_order_independent (u1 u2 : String) (p q1 q2 : List Char)
    (h1 : cutChar '?' u1.data = some (p, q1))
    (h2 : cutChar '?' u2.data = some (p, q2))
    (hctl1 : hasCtl u1.data = false) (hctl2 : hasCtl u2.data = false)
    (hpath : (unescapeChars false p).isSome = true)
    (hperm : (splitOnChar '&' q1).Perm (splitOnChar '&' q2))
    (hne : (parseQuery q1).isEmpty = false) :
    cacheKeyByRequestURI u1 = cacheKeyByRequestURI u2 := by
  have hqperm : (parseQuery q1).Perm (parseQuery q2) :=
    (hperm.filter _).filterMap _
  have hne2 : (parseQuery q2).isEmpty = false := by
    rcases hq : parseQuery q2 with _ | _
    · rw [hq] at hqperm
      rw [hqperm.eq_nil] at hne
      exact absurd hne (by simp)
    · rfl
  obtain ⟨dp, hdp⟩ := Option.isSome_iff_exists.mp hpath
  unfold cacheKeyByRequestURI getRequestUriIgnoreQueryOrder
  simp only [hctl1, hctl2, h1, h2, Bool.false_eq_true, if_false]
  simp only [hdp, hne, hne2, Bool.false_eq_true, if_false]
  rw [canonQuery_perm _ _ hqperm]

/-- Witness for C7 at concrete URIs: /p?b=2&a=1 and /p?a=1&b=2 derive the
same key. -/
theorem key_query_order_independent_witness :
    cacheKeyByRequestURI "/p?b=2&a=1" = cacheKeyByRequestURI "/p?a=1&b=2" :=
  key_query_order_independent "/p?b=2&a=1" "/p?a=1&b=2" "/p".data
    "b=2&a=1".data "a=1&b=2".data (by decide) (by decide) (by decide) (by decide)
    (by decide) (by decide) (by decide)

/-! ## C8: length threshold and digest fallback of urlEscape -/

theorem sha1Out_length (h : Nat × Nat × Nat × Nat × Nat) : (sha1Out h).length = 20 := by
  simp [sha1Out, wordBE]

/-- The SHA-1 digest has a fixed length of 20 bytes for every input. -/
theorem sha1Bytes_length (msg : List Nat) : (sha1Bytes msg).length = 20 :=
  sha1Out_length _

/-- C8: for every input byte string whose query-escaped key exceeds the
200-byte threshold, the generated page-cache key is the namespace prefix, a
colon, and the fixed-length (20-byte) SHA-1 digest of the original input in
place of the over-long escaped key; at or under the threshold it is the
prefix, a colon, and the escaped key itself. -/
theorem urlEscape_threshold (u : List Nat) (_hu : u.all (fun b => b < 256) = true) :
    (200 < (queryEscape u).length →
      urlEscape PageCachePrefix u = PageCachePrefix ++ colonByte :: sha1Bytes u ∧
      (sha1Bytes u).length = 20) ∧
    ((queryEscape u).length ≤ 200 →
      urlEscape PageCachePrefix u = PageCachePrefix ++ colonByte :: queryEscape u) := by
  constructor
  · intro h
    refine ⟨?_, sha1Bytes_length u⟩
    simp only [urlEscape]
    rw [if_pos h]
  · intro h
    simp only [urlEscape]
    rw [if_neg (by omega)]

set_option maxRecDepth 100000 in
/-- Witness for C8: 201 letters escape to a 201-byte key, which is replaced
by the 20-byte digest; the one-letter input keeps its escaped key. -/
theorem urlEscape_threshold_witness :
    urlEscape PageCachePrefix (List.replicate 201 97) =
      PageCachePrefix ++ colonByte :: sha1Bytes (List.replicate 201 97) ∧
    (sha1Bytes (List.replicate 201 97)).length = 20 ∧
    urlEscape PageCachePrefix [97] = PageCachePrefix ++ colonByte :: queryEscape [97] :=
  ⟨((urlEscape_threshold (List.replicate 201 97) (by decide)).1 (by decide)).1,
    ((urlEscape_threshold (List.replicate 201 97) (by decide)).1 (by decide)).2,
    (urlEscape_threshold [97] (by decide)).2 (by decide)⟩

end GinCache
